import Mathlib

/-!
Shallow embedding of the pytomlcleaner dependency analyzer
(src/src/pytomlcleaner/cleaner.py, with the legacy revision src/cleaner.py).

Python strings are modelled as Lean `String` (a list of characters); the
handful of string primitives the source uses (`str.lower`, `str.replace` with
one-character patterns, `str.split(d)[0]`, `str.strip`, substring tests) are
embedded as total functions over `List Char`.  Python sets are modelled as
lists with membership semantics.  Fallible external lookups (file reads,
installed-package metadata) are modelled as `Option`-valued inputs.
-/

/-- ASCII lowercasing of one character, modelling Python `str.lower` on the
ASCII package names this tool manipulates. -/
def lowerChar (c : Char) : Char :=
  if 'A' ≤ c ∧ c ≤ 'Z' then Char.ofNat (c.toNat + 32) else c

/-- Python `s.lower()`. -/
def pyLower (s : String) : String :=
  ⟨s.data.map lowerChar⟩

/-- Python `s.replace(old, new)` for one-character `old` and `new`. -/
def replaceChar (old new : Char) (s : String) : String :=
  ⟨s.data.map (fun c => if c = old then new else c)⟩

/-- Python `s.replace(old, "")` for a one-character `old` (deletion). -/
def eraseChar (old : Char) (s : String) : String :=
  ⟨s.data.filter (fun c => decide (c ≠ old))⟩

/-- ASCII whitespace recognised by Python `str.strip`. -/
def isSpaceChar (c : Char) : Bool :=
  decide (c = ' ' ∨ c = '\t' ∨ c = '\n' ∨ c = '\r' ∨ c.toNat = 11 ∨ c.toNat = 12)

/-- Python `s.strip()`: whitespace removed from both ends. -/
def pyTrim (s : String) : String :=
  ⟨((s.data.dropWhile isSpaceChar).reverse.dropWhile isSpaceChar).reverse⟩

/-- Python `s.split(d)[0]` for a one-character delimiter: the portion of the
string before the first occurrence of the delimiter. -/
def beforeChar (delim : Char) (s : String) : String :=
  ⟨s.data.takeWhile (fun c => decide (c ≠ delim))⟩

/-- Splitting a character list at every occurrence of a delimiter, modelling
Python `str.split(d)` for a one-character delimiter (always non-empty). -/
def splitChar (delim : Char) : List Char → List (List Char)
  | [] => [[]]
  | c :: rest =>
    match splitChar delim rest with
    | [] => if c = delim then [[], []] else [[c]]
    | h :: t => if c = delim then [] :: h :: t else (c :: h) :: t

/-- Python `s.split(d)` for a one-character delimiter, on strings. -/
def pySplit (delim : Char) (s : String) : List String :=
  (splitChar delim s.data).map (fun cs => ⟨cs⟩)

/-- Does the character list start with the given pattern? -/
def lstartsWith : List Char → List Char → Bool
  | _, [] => true
  | [], _ :: _ => false
  | c :: cs, d :: ds => decide (c = d) && lstartsWith cs ds

/-- Python substring test `pat in t` (is `pat` a contiguous substring of `t`?). -/
def lcontains : List Char → List Char → Bool
  | [], pat => pat.isEmpty
  | t@(_ :: rest), pat => lstartsWith t pat || lcontains rest pat

/-- cleaner.py, `get_dependencies` / `remove_unused_dependencies`:
`dep.split(";")[0].split("<")[0].split(">")[0].split("=")[0].split("~")[0].split("!")[0].strip()`
— the bare package name of a dependency specifier, before lowercasing. -/
def bareName (dep : String) : String :=
  pyTrim (beforeChar '!' (beforeChar '~' (beforeChar '=' (beforeChar '>'
    (beforeChar '<' (beforeChar ';' dep))))))

/-! ## The manifest document and `remove_unused_dependencies`

A tomlkit document is modelled by the three parts the mutation touches:
the `project.dependencies` array of specifier strings (present iff the key
chain exists and holds an array), the `tool.poetry.dependencies` table as an
ordered association list (present iff the key chain exists and holds a
table), and an opaque remainder `rest` standing for every other piece of
document structure, formatting and comments, which the function never
touches.  tomlkit parse/serialize round-tripping is the external black box
the spec places out of scope. -/

structure TomlDoc where
  projectDeps : Option (List String)
  poetryDeps : Option (List (String × String))
  rest : String
deriving DecidableEq

/-- The backward index loop of `remove_unused_dependencies` over the
`project.dependencies` array:
`for i in range(len(deps)-1, -1, -1): if bare(deps[i]).lower() in unused: del deps[i]`.
The argument `i+1` plays the loop variable, counting down. -/
def flatRemoveLoop (unusedPackages : List String) : Nat → List String → List String
  | 0, deps => deps
  | i + 1, deps =>
    let depStr := deps.getD i ""
    let packageName := pyLower (bareName depStr)
    let deps' := if packageName ∈ unusedPackages then deps.eraseIdx i else deps
    flatRemoveLoop unusedPackages i deps'

/-- cleaner.py lines 489-554 (and legacy lines 206-269),
`remove_unused_dependencies(pyproject_path, unused_packages)`: deletes flat
PEP 621 entries whose bare lowercased name is in `unused_packages` (backward
index loop), and deletes every Poetry table key whose lowercase form is in
`unused_packages` and is not `"python"` (a set of keys is collected and then
deleted key by key; deleting a set of keys from a table is order-independent
and equals a filter).  Everything else in the document is untouched. -/
def remove_unused_dependencies (doc : TomlDoc) (unusedPackages : List String) : TomlDoc :=
  { doc with
    projectDeps := doc.projectDeps.map (fun deps => flatRemoveLoop unusedPackages deps.length deps)
    poetryDeps := doc.poetryDeps.map (fun tbl =>
      tbl.filter (fun kv =>
        decide (¬(pyLower kv.1 ∈ unusedPackages ∧ pyLower kv.1 ≠ "python")))) }

/-! ## The manifest reader `get_dependencies` -/

/-- The two sections of a parsed (tomllib) pyproject document that
`get_dependencies` reads: `data.get("project", {}).get("dependencies", [])`
and the keys of `data.get("tool", {}).get("poetry", {}).get("dependencies", {})`
in document order.  Absent sections are the empty default. -/
structure PyprojectData where
  projectDependencies : List String
  poetryDependencies : List String

/-- cleaner.py lines 406-438, `get_dependencies(path)`: `none` models the
`FileNotFoundError` path (the error is printed, the empty set returned);
otherwise the union of the lowercased bare names of the flat list and the
lowercased Poetry keys other than `"python"`. -/
def get_dependencies (file : Option PyprojectData) : Finset String :=
  match file with
  | none => ∅
  | some data =>
    let afterFlat := data.projectDependencies.foldl
      (fun deps dep => insert (pyLower (bareName dep)) deps) ∅
    data.poetryDependencies.foldl
      (fun deps pkg =>
        if pyLower pkg ∉ ["python"] then insert (pyLower pkg) deps else deps)
      afterFlat

/-! ## Static tables -/

/-- cleaner.py lines 66-97: `BASE_MAPPING`, the built-in static table from
package names to import names, as an association list in source order. -/
def BASE_MAPPING : List (String × List String) :=
  [("opencv-python", ["cv2"]),
   ("opencv-contrib-python", ["cv2"]),
   ("scikit-learn", ["sklearn"]),
   ("scikit-image", ["skimage"]),
   ("tensorboard", ["tensorboard"]),
   ("pillow", ["PIL"]),
   ("beautifulsoup4", ["bs4"]),
   ("pyyaml", ["yaml"]),
   ("gitpython", ["git"]),
   ("python-dotenv", ["dotenv"]),
   ("fastapi", ["fastapi"]),
   ("uvicorn", ["uvicorn"]),
   ("uvloop", ["uvloop"]),
   ("starlette", ["starlette"]),
   ("httpx", ["httpx"]),
   ("python-multipart", ["multipart"]),
   ("pyjwt", ["jwt"]),
   ("python-jose", ["jose"]),
   ("typing-extensions", ["typing_extensions"]),
   ("dvc", ["dvc"]),
   ("gdown", ["gdown"])]

/-- cleaner.py lines 102-125: `IGNORE_PACKAGES`, the built-in protected
package set (the tool itself plus build/lint/test tooling), as a list with
set-membership semantics. -/
def IGNORE_PACKAGES : List String :=
  ["pytomlcleaner",
   "pytest", "tox",
   "black", "ruff", "mypy", "pylint", "flake8", "isort",
   "poetry", "setuptools", "wheel", "build", "twine",
   "pre-commit", "virtualenv", "pip"]

/-! ## The import-name resolver -/

/-- A custom-mapping value from `[tool.pytomlcleaner]`: the source handles
both a single string and a list of strings. -/
inductive OneOrMany where
  | one (s : String)
  | many (l : List String)
deriving DecidableEq

/-- The source normalizes a single-string custom mapping to a one-element
list: `custom_imports if isinstance(custom_imports, list) else [custom_imports]`. -/
def oneOrManyList : OneOrMany → List String
  | .one s => [s]
  | .many l => l

/-- Python dict lookup on an association list (first binding wins). -/
def alookup {α : Type} : List (String × α) → String → Option α
  | [], _ => none
  | (k, v) :: rest, key => if k = key then some v else alookup rest key

/-- The `[tool.pytomlcleaner]` configuration section loaded by
`DependencyAnalyzer._load_config`: `custom_mappings` and `ignore`. -/
structure AnalyzerConfig where
  customMappings : List (String × OneOrMany)
  ignore : List String

/-- Tier 3 of the resolver, reading `top_level.txt`:
`[line.strip() for line in top_level_file.splitlines() if line.strip()]`
(lines modelled as newline-separated; `strip` removes any `\r`). -/
def topLevelNames (content : String) : List String :=
  ((pySplit '\n' content).map pyTrim).filter (fun line => decide (line ≠ ""))

/-- cleaner.py lines 237-274,
`DependencyAnalyzer.get_import_names_for_package(package_name)`.
The installed-package metadata environment is the input
`env : String → Option String`: `some content` models a successful
`distribution(name).read_text("top_level.txt")` returning `content`, and
`none` models every fall-through case of the source (package not installed,
missing `top_level.txt`, or a metadata error, all of which reach tier 4).
A returned empty string is falsy in Python, so it too falls to tier 4. -/
def get_import_names_for_package (cfg : AnalyzerConfig) (env : String → Option String)
    (packageName : String) : List String :=
  let normalized := replaceChar '_' '-' (pyLower packageName)
  match alookup cfg.customMappings normalized with
  | some customImports => oneOrManyList customImports
  | none =>
    match alookup BASE_MAPPING normalized with
    | some imports => imports
    | none =>
      match env packageName with
      | some topLevelFile =>
        if topLevelFile ≠ "" then topLevelNames topLevelFile
        else [replaceChar '-' '_' packageName]
      | none => [replaceChar '-' '_' packageName]

/-! ## The name normalizer and the similarity matcher -/

/-- cleaner.py lines 157-159, `normalize_name(name)`:
`name.replace("-", "").replace("_", "").lower()`. -/
def normalize_name (name : String) : String :=
  pyLower (eraseChar '_' (eraseChar '-' name))

/-! ### `difflib.SequenceMatcher` (CPython) — the fuzzy tier of `is_similar`

The source calls `SequenceMatcher(None, norm_pkg, norm_imp).ratio()`.  The
embedding below follows the CPython implementation: `b2j` with the autojunk
purge of popular elements, the `find_longest_match` dynamic program with its
non-junk extension loops (with `isjunk=None` the junk set `bjunk` is empty,
so the junk-extension loops never fire and are omitted), the recursive
`get_matching_blocks` region split, and
`ratio = 2 * matches / (len(a) + len(b))` computed here in exact rational
arithmetic. -/

/-- The ascending list of positions of `c` in `b` (the `b2j` table before
the autojunk purge). -/
def b2jList (b : List Char) (c : Char) : List Nat :=
  (List.range b.length).filter (fun j => decide (b.getD j ' ' = c))

/-- `b2j` after the autojunk purge: if `len(b) >= 200`, elements occurring
more than `len(b) // 100 + 1` times are dropped from the table. -/
def b2j (b : List Char) (c : Char) : List Nat :=
  let idxs := b2jList b c
  if b.length ≥ 200 ∧ idxs.length > b.length / 100 + 1 then [] else idxs

/-- A matching block `(besti, bestj, size)`. -/
structure FlmMatch where
  besti : Nat
  bestj : Nat
  size : Nat
deriving DecidableEq

/-- Inner loop of `find_longest_match` over the positions `j` of `a[i]` in
`b`: `k = newj2len[j] = j2len.get(j-1, 0) + 1`, updating the best block on
strict improvement.  `j2len` is the previous row. -/
def flmStepJ (j2len : Nat → Nat) (i : Nat)
    (st : (Nat → Nat) × FlmMatch) (j : Nat) : (Nat → Nat) × FlmMatch :=
  let newj2len := st.1
  let best := st.2
  let k := (if j = 0 then 0 else j2len (j - 1)) + 1
  let newj2len' := fun j' => if j' = j then k else newj2len j'
  let best' := if k > best.size then ⟨i + 1 - k, j + 1 - k, k⟩ else best
  (newj2len', best')

/-- Outer loop body of `find_longest_match` for one `i`: the `j` positions
below `blo` are skipped (`continue`) and the ascending scan stops at `bhi`
(`break`). -/
def flmStepI (a : List Char) (b2jf : Char → List Nat) (blo bhi : Nat)
    (st : (Nat → Nat) × FlmMatch) (i : Nat) : (Nat → Nat) × FlmMatch :=
  let js := ((b2jf (a.getD i ' ')).filter (fun j => decide (blo ≤ j))).takeWhile
    (fun j => decide (j < bhi))
  let res := js.foldl (flmStepJ st.1 i) (fun _ => 0, st.2)
  (res.1, res.2)

/-- The left extension loop of `find_longest_match` (non-junk variant; with
`isjunk=None` nothing is junk).  Fuel `besti` bounds the walk. -/
def extendLeft (a b : List Char) (alo blo : Nat) : Nat → FlmMatch → FlmMatch
  | 0, m => m
  | fuel + 1, m =>
    if alo < m.besti ∧ blo < m.bestj ∧
        a.getD (m.besti - 1) '?' = b.getD (m.bestj - 1) '!' then
      extendLeft a b alo blo fuel ⟨m.besti - 1, m.bestj - 1, m.size + 1⟩
    else m

/-- The right extension loop of `find_longest_match` (non-junk variant). -/
def extendRight (a b : List Char) (ahi bhi : Nat) : Nat → FlmMatch → FlmMatch
  | 0, m => m
  | fuel + 1, m =>
    if m.besti + m.size < ahi ∧ m.bestj + m.size < bhi ∧
        a.getD (m.besti + m.size) '?' = b.getD (m.bestj + m.size) '!' then
      extendRight a b ahi bhi fuel ⟨m.besti, m.bestj, m.size + 1⟩
    else m

/-- CPython `SequenceMatcher.find_longest_match(alo, ahi, blo, bhi)`. -/
def find_longest_match (a b : List Char) (alo ahi blo bhi : Nat) : FlmMatch :=
  let init : (Nat → Nat) × FlmMatch := (fun _ => 0, ⟨alo, blo, 0⟩)
  let best := (((List.range ahi).drop alo).foldl (flmStepI a (b2j b) blo bhi) init).2
  extendRight a b ahi bhi ahi (extendLeft a b alo blo best.besti best)

/-- The total size of all matching blocks: the recursive region split of
CPython `get_matching_blocks` (the queue discipline only affects block
order, not the sum of sizes).  The fuel exceeds the recursion depth, which
is bounded by the `a`-extent of the region. -/
def matchingTotal (a b : List Char) : Nat → Nat × Nat × Nat × Nat → Nat
  | 0, _ => 0
  | fuel + 1, (alo, ahi, blo, bhi) =>
    let m := find_longest_match a b alo ahi blo bhi
    if m.size = 0 then 0
    else
      m.size
        + (if alo < m.besti ∧ blo < m.bestj then
             matchingTotal a b fuel (alo, m.besti, blo, m.bestj) else 0)
        + (if m.besti + m.size < ahi ∧ m.bestj + m.size < bhi then
             matchingTotal a b fuel (m.besti + m.size, ahi, m.bestj + m.size, bhi) else 0)

/-- CPython `SequenceMatcher(None, a, b).ratio()` in exact rational
arithmetic: `2 * matches / (len(a) + len(b))`, and `1` when both are empty. -/
def ratioQ (a b : List Char) : ℚ :=
  let total := a.length + b.length
  if total = 0 then 1
  else 2 * (matchingTotal a b (a.length + 1) (0, a.length, 0, b.length) : ℚ) / total

/-- cleaner.py lines 162-209, `is_similar(package_name, import_name, threshold)`:
exact match on normalized forms, then substring either direction, then the
`SequenceMatcher` ratio against the threshold (default `0.6`, passed
explicitly as `3/5` at call sites). -/
def is_similar (packageName importName : String) (threshold : ℚ) : Bool :=
  let normPkg := normalize_name packageName
  let normImp := normalize_name importName
  if normPkg = normImp then true
  else if lcontains normImp.data normPkg.data || lcontains normPkg.data normImp.data then true
  else decide (threshold ≤ ratioQ normPkg.data normImp.data)

/-! ## The usage classifier `identify_unused` -/

/-- cleaner.py lines 351-400, `DependencyAnalyzer.identify_unused(declared_deps)`.
`foundImports` is the accumulated `self.found_imports` set (a list with
membership semantics; the loops below only test existence, so order is
irrelevant), `cfg` the loaded `[tool.pytomlcleaner]` section, `env` the
installed-metadata environment of the resolver.  A declared name is skipped
when its lowercase form is in the user ignore list or in `IGNORE_PACKAGES`;
it is found when some resolved candidate lowercases into `foundImports`, or
(failing that) when `is_similar` with the default threshold links the
declared name or any candidate to some found import.  Unfound names are
appended in declaration order. -/
def identify_unused (cfg : AnalyzerConfig) (env : String → Option String)
    (foundImports : List String) : List String → List String
  | [] => []
  | dep :: rest =>
    let depLower := pyLower dep
    if depLower ∈ cfg.ignore ∨ depLower ∈ IGNORE_PACKAGES then
      identify_unused cfg env foundImports rest
    else
      let possibleImports := get_import_names_for_package cfg env dep
      let found :=
        possibleImports.any (fun imp => decide (pyLower imp ∈ foundImports)) ||
        foundImports.any (fun foundImport =>
          is_similar dep foundImport (3/5) ||
          possibleImports.any (fun imp => is_similar imp foundImport (3/5)))
      if found then identify_unused cfg env foundImports rest
      else dep :: identify_unused cfg env foundImports rest

/-! ## The structured scan of `scan_python_files` -/

/-- The import statements of one parsed Python file, as the `ast` module
presents them to `scan_python_files`: a plain `import` node carries the
dotted module path of each alias, a from-import node carries an optional
module path (`none` for `from . import x`; the empty string is falsy in
Python and is guarded below) and the list of imported names. -/
inductive PyImport where
  | imp (names : List String)
  | impFrom (module : Option String) (names : List String)
deriving DecidableEq

/-- cleaner.py lines 292-295 and 301-304: every non-empty dotted path
segment, lowercased: `for part in name.split("."): if part: add(part.lower())`. -/
def importPathSegments (name : String) : List String :=
  ((pySplit '.' name).filter (fun part => decide (part ≠ ""))).map pyLower

/-- The names one AST import node contributes to `self.found_imports`
(cleaner.py lines 287-309): all path segments of a plain import; for a
from-import the module path segments (when the module is present and
non-empty) plus the lowercased imported names other than `"*"`. -/
def scanImportNode : PyImport → List String
  | .imp names => (names.map importPathSegments).flatten
  | .impFrom module names =>
    (match module with
     | some m => if m ≠ "" then importPathSegments m else []
     | none => []) ++
    (names.filter (fun n => decide (n ≠ "*"))).map pyLower

/-- The referenced names the structured scan extracts from one parsed file:
the union over its import nodes (the set is modelled as a list; the regex
fallback of lines 311-317 only ever adds further names). -/
def scanFileImports (nodes : List PyImport) : List String :=
  (nodes.map scanImportNode).flatten

/-! ## Helper lemmas -/

theorem take_eraseIdx_eq {α : Type} : ∀ (l : List α) (n : Nat), (l.eraseIdx n).take n = l.take n
  | [], _ => by simp [List.eraseIdx]
  | _ :: _, 0 => by simp
  | a :: t, n + 1 => by
    simp only [List.eraseIdx, List.take_cons, List.take]
    exact congrArg (a :: ·) (take_eraseIdx_eq t n)

theorem drop_eraseIdx_eq {α : Type} : ∀ (l : List α) (n : Nat), (l.eraseIdx n).drop n = l.drop (n + 1)
  | [], _ => by simp [List.eraseIdx]
  | _ :: _, 0 => by simp [List.eraseIdx]
  | a :: t, n + 1 => by
    simp only [List.eraseIdx, List.drop]
    exact drop_eraseIdx_eq t n

theorem take_succ_getD {α : Type} (d : α) :
    ∀ (l : List α) (n : Nat), n < l.length → l.take (n + 1) = l.take n ++ [l.getD n d]
  | [], n, h => by simp at h
  | a :: t, 0, _ => by simp
  | a :: t, n + 1, h => by
    simp only [List.take_cons, List.getD_cons_succ, List.cons_append]
    exact congrArg (a :: ·) (take_succ_getD d t n (by simpa using h))

theorem drop_getD_cons {α : Type} (d : α) :
    ∀ (l : List α) (n : Nat), n < l.length → l.drop n = l.getD n d :: l.drop (n + 1)
  | [], n, h => by simp at h
  | a :: t, 0, _ => by simp
  | a :: t, n + 1, h => by
    simp only [List.drop, List.getD_cons_succ]
    exact drop_getD_cons d t n (by simpa using h)

theorem length_eraseIdx_lt {α : Type} : ∀ (l : List α) (n : Nat), n < l.length →
    (l.eraseIdx n).length = l.length - 1
  | [], n, h => by simp at h
  | a :: t, 0, _ => by simp [List.eraseIdx]
  | a :: t, n + 1, h => by
    have ht : n < t.length := by simpa using h
    simp only [List.eraseIdx, List.length_cons, length_eraseIdx_lt t n ht]
    omega

theorem flatRemoveLoop_eq (u : List String) :
    ∀ (n : Nat) (deps : List String), n ≤ deps.length →
      flatRemoveLoop u n deps =
        (deps.take n).filter (fun d => decide (pyLower (bareName d) ∉ u)) ++ deps.drop n
  | 0, deps, _ => by simp [flatRemoveLoop]
  | n + 1, deps, h => by
    have hn : n < deps.length := h
    rw [flatRemoveLoop]
    by_cases hc : pyLower (bareName (deps.getD n "")) ∈ u
    · rw [if_pos hc]
      have hlen : n ≤ (deps.eraseIdx n).length := by
        rw [length_eraseIdx_lt deps n hn]; omega
      rw [flatRemoveLoop_eq u n (deps.eraseIdx n) hlen,
        take_eraseIdx_eq, drop_eraseIdx_eq,
        take_succ_getD "" deps n hn, List.filter_append]
      have hc' : pyLower (bareName (deps[n]?.getD "")) ∈ u := by
        simpa only [List.getD_eq_getElem?_getD] using hc
      simp [hc']
    · rw [if_neg hc]
      rw [flatRemoveLoop_eq u n deps (le_of_lt hn),
        take_succ_getD "" deps n hn, List.filter_append,
        drop_getD_cons "" deps n hn]
      have hc' : pyLower (bareName (deps[n]?.getD "")) ∉ u := by
        simpa only [List.getD_eq_getElem?_getD] using hc
      simp [hc']

theorem alookup_mem {α : Type} :
    ∀ (l : List (String × α)) (key : String) (v : α),
      alookup l key = some v → (key, v) ∈ l
  | [], _, _, h => by simp [alookup] at h
  | (k, w) :: rest, key, v, h => by
    rw [alookup] at h
    by_cases hk : k = key
    · rw [if_pos hk] at h
      subst hk
      exact (Option.some_inj.mp h) ▸ List.mem_cons_self _ _
    · exact List.mem_cons_of_mem _ (alookup_mem rest key v (by rwa [if_neg hk] at h))

theorem foldl_insert_eq (f : String → String) :
    ∀ (l : List String) (s : Finset String),
      l.foldl (fun acc x => insert (f x) acc) s = s ∪ (l.map f).toFinset
  | [], s => by simp
  | x :: t, s => by
    rw [List.foldl_cons, foldl_insert_eq f t (insert (f x) s)]
    simp [Finset.insert_union, Finset.union_insert]

theorem foldl_insert_ite_eq (p : String → Prop) [DecidablePred p] (f : String → String) :
    ∀ (l : List String) (s : Finset String),
      l.foldl (fun acc x => if p x then insert (f x) acc else acc) s
        = s ∪ ((l.filter (fun x => decide (p x))).map f).toFinset
  | [], s => by simp
  | x :: t, s => by
    rw [List.foldl_cons]
    by_cases hp : p x
    · rw [if_pos hp, foldl_insert_ite_eq p f t (insert (f x) s)]
      simp [hp, Finset.insert_union, Finset.union_insert]
    · rw [if_neg hp, foldl_insert_ite_eq p f t s]
      simp [hp]

/-! ## The claims -/


/-- Claim C1, counterexample: with a manifest whose flat PEP 621 dependency
list is `["python"]` and the unused set `{"python"}`, the removal operation
deletes the `python` entry from the flat list — the guard protecting the
language-runtime pseudo-dependency exists only in the Poetry branch, so the
claim fails for the flat dialect. -/
theorem C1_counterexample :
    remove_unused_dependencies ⟨some ["python"], none, "rest"⟩ ["python"]
      = ⟨some [], none, "rest"⟩ := by
  decide

/-- Claim C1, amended: the language-runtime pseudo-dependency `python` is
never removed from the Poetry nested table, even when `python` is a member
of the unused-package set; the PEP 621 flat list has no such protection. -/
theorem C1_amended (doc : TomlDoc) (unused : List String)
    (tbl : List (String × String)) (hp : doc.poetryDeps = some tbl)
    (k v : String) (hm : (k, v) ∈ tbl) (hk : pyLower k = "python") :
    ∃ tbl', (remove_unused_dependencies doc unused).poetryDeps = some tbl' ∧
      (k, v) ∈ tbl' := by
  refine ⟨tbl.filter (fun kv => decide (¬(pyLower kv.1 ∈ unused ∧ pyLower kv.1 ≠ "python"))),
    by simp [remove_unused_dependencies, hp], ?_⟩
  refine List.mem_filter.mpr ⟨hm, ?_⟩
  simp [hk]

theorem C1_amended_witness :
    ∃ tbl', (remove_unused_dependencies ⟨none, some [("python", "^3.9")], ""⟩
        ["python"]).poetryDeps = some tbl' ∧ ("python", "^3.9") ∈ tbl' :=
  C1_amended _ ["python"] _ rfl "python" "^3.9" (by decide) (by decide)

/-- Claim C7: removing an empty unused set is the identity on the manifest
document — no entry of either dependency dialect is deleted and all other
document structure is untouched. -/
theorem C7_empty_removal_id (doc : TomlDoc) :
    remove_unused_dependencies doc [] = doc := by
  obtain ⟨pd, po, r⟩ := doc
  have h1 : ∀ deps : List String, flatRemoveLoop [] deps.length deps = deps := by
    intro deps
    rw [flatRemoveLoop_eq [] deps.length deps le_rfl]
    simp
  cases pd <;> cases po <;> simp [remove_unused_dependencies, h1]

/-- Claim C8: with unused set `{"numpy"}`, removal leaves the flat list with
no entry whose bare lowercased name is `numpy`, and the surviving entries
are exactly the other entries, unchanged and in their original order. -/
theorem C8_removal_correct (doc : TomlDoc) (deps : List String)
    (hd : doc.projectDeps = some deps)
    (_hex : ∃ d ∈ deps, pyLower (bareName d) = "numpy") :
    ∃ deps',
      (remove_unused_dependencies doc ["numpy"]).projectDeps = some deps' ∧
      (∀ d ∈ deps', pyLower (bareName d) ≠ "numpy") ∧
      deps' = deps.filter (fun d => decide (pyLower (bareName d) ≠ "numpy")) := by
  have hloop : flatRemoveLoop ["numpy"] deps.length deps
      = deps.filter (fun d => decide (pyLower (bareName d) ≠ "numpy")) := by
    rw [flatRemoveLoop_eq ["numpy"] deps.length deps le_rfl]
    simp
  refine ⟨flatRemoveLoop ["numpy"] deps.length deps,
    by simp [remove_unused_dependencies, hd], ?_, hloop⟩
  intro d hdmem
  rw [hloop] at hdmem
  simpa using (List.mem_filter.mp hdmem).2

theorem C8_witness :
    ∃ deps',
      (remove_unused_dependencies ⟨some ["numpy>=1.0", "requests"], none, ""⟩
        ["numpy"]).projectDeps = some deps' ∧
      (∀ d ∈ deps', pyLower (bareName d) ≠ "numpy") ∧
      deps' = ["numpy>=1.0", "requests"].filter
        (fun d => decide (pyLower (bareName d) ≠ "numpy")) :=
  C8_removal_correct _ _ rfl (by decide)

/-- Claim C2, counterexample: the classifier lowercases the declared name
before testing membership in the user ignore-list, but the ignore-list
itself is not lowercased; the declared name `"Numpy"`, literally present in
the ignore-list `["Numpy"]`, is still reported unused. -/
theorem C2_counterexample :
    identify_unused ⟨[], ["Numpy"]⟩ (fun _ => none) [] ["Numpy"] = ["Numpy"] ∧
    "Numpy" ∈ (AnalyzerConfig.mk [] ["Numpy"]).ignore := by
  exact ⟨by decide, by decide⟩

/-- Claim C2, amended: a declared name whose lowercase form is in the user
ignore-list or in the built-in protected set `IGNORE_PACKAGES` is never an
element of the unused output, regardless of scan results. -/
theorem C2_amended (cfg : AnalyzerConfig) (env : String → Option String)
    (foundImports : List String) (dep : String)
    (h : pyLower dep ∈ cfg.ignore ∨ pyLower dep ∈ IGNORE_PACKAGES) :
    ∀ declared : List String, dep ∉ identify_unused cfg env foundImports declared := by
  intro declared
  induction declared with
  | nil => simp [identify_unused]
  | cons d rest ih =>
    simp only [identify_unused]
    split
    next => exact ih
    next hskip =>
      split
      next => exact ih
      next =>
        intro hmem
        rcases List.mem_cons.mp hmem with heq | hmem'
        · exact hskip (heq ▸ h)
        · exact ih hmem'

theorem C2_witness :
    "pytest" ∉ identify_unused ⟨[], []⟩ (fun _ => none) [] ["pytest"] :=
  C2_amended _ _ _ _ (Or.inr (by decide)) ["pytest"]

/-- Claim C10: the unused output of the classifier is a sublist of the
declared input — every output element occurs in the input with identical
spelling and case, and output elements keep their original relative order. -/
theorem C10_subsequence (cfg : AnalyzerConfig) (env : String → Option String)
    (foundImports : List String) (declared : List String) :
    List.Sublist (identify_unused cfg env foundImports declared) declared := by
  induction declared with
  | nil => simp [identify_unused]
  | cons d rest ih =>
    simp only [identify_unused]
    split
    next => exact ih.cons d
    next =>
      split
      next => exact ih.cons d
      next => exact ih.cons₂ d

/-- Claim C3: when the normalized package name is a key of both the user
custom-mapping table and the built-in `BASE_MAPPING`, the resolver returns
the custom value (a single string becoming a one-element list), never the
built-in value — only the first tier with a result is used. -/
theorem C3_custom_precedence (cfg : AnalyzerConfig) (env : String → Option String)
    (packageName : String) (v : OneOrMany)
    (h1 : alookup cfg.customMappings (replaceChar '_' '-' (pyLower packageName)) = some v)
    (_h2 : (alookup BASE_MAPPING (replaceChar '_' '-' (pyLower packageName))).isSome = true) :
    get_import_names_for_package cfg env packageName = oneOrManyList v := by
  simp only [get_import_names_for_package, h1]

theorem C3_witness :
    get_import_names_for_package ⟨[("pillow", OneOrMany.one "PIL2")], []⟩
      (fun _ => none) "Pillow" = ["PIL2"] :=
  C3_custom_precedence _ _ "Pillow" (OneOrMany.one "PIL2") (by decide) (by decide)

/-- Claim C4, counterexample: resolver totality fails for an arbitrary
configuration state — a custom mapping whose value is the empty list makes
the resolver return the empty candidate list for a non-empty package name. -/
theorem C4_counterexample :
    get_import_names_for_package ⟨[("foo", OneOrMany.many [])], []⟩ (fun _ => none) "foo" = []
      ∧ "foo" ≠ "" := by
  exact ⟨by decide, by decide⟩

/-- Claim C4, amended: for every non-empty package name the resolver returns
at least one candidate, provided the custom mapping does not map the
normalized name to an empty list and any successfully read metadata content
yields at least one non-blank line; in particular, with no custom mapping
and no installed metadata it still returns the tier-4 fallback (hyphens
replaced by underscores). -/
theorem C4_amended (cfg : AnalyzerConfig) (env : String → Option String) (packageName : String)
    (_hne : packageName ≠ "")
    (hcustom : ∀ v, alookup cfg.customMappings (replaceChar '_' '-' (pyLower packageName)) = some v →
      oneOrManyList v ≠ [])
    (hmeta : ∀ content, env packageName = some content → content ≠ "" →
      topLevelNames content ≠ []) :
    get_import_names_for_package cfg env packageName ≠ [] := by
  cases hc : alookup cfg.customMappings (replaceChar '_' '-' (pyLower packageName)) with
  | some v =>
    simp only [get_import_names_for_package, hc]
    exact hcustom v hc
  | none =>
    cases hb : alookup BASE_MAPPING (replaceChar '_' '-' (pyLower packageName)) with
    | some imports =>
      have hvals : ∀ p ∈ BASE_MAPPING, p.2 ≠ ([] : List String) := by decide
      simp only [get_import_names_for_package, hc, hb]
      exact hvals _ (alookup_mem _ _ _ hb)
    | none =>
      cases he : env packageName with
      | some content =>
        by_cases hemp : content ≠ ""
        · simp only [get_import_names_for_package, hc, hb, he, if_pos hemp]
          exact hmeta content he hemp
        · simp only [get_import_names_for_package, hc, hb, he, if_neg hemp]
          simp
      | none =>
        simp [get_import_names_for_package, hc, hb, he]

theorem C4_witness :
    get_import_names_for_package ⟨[], []⟩ (fun _ => none) "python-dotenv" ≠ [] :=
  C4_amended _ _ _ (by decide) (fun v h => by simp [alookup] at h) (fun c h _ => by simp at h)

/-- Claim C5: the structured scan adds every non-empty dotted path segment
of a plain import statement to the referenced set, lowercased (so a file
with `import a.b.c` contributes `a`, `b` and `c`); the same segment
splitting applies to the module path of a from-style import, whose
explicitly imported names (excluding `*`) are added as well. -/
theorem C5_segment_scan (nodes : List PyImport) :
    (∀ names, PyImport.imp names ∈ nodes → ∀ m ∈ names, ∀ part ∈ pySplit '.' m,
      part ≠ "" → pyLower part ∈ scanFileImports nodes) ∧
    (∀ module names, PyImport.impFrom (some module) names ∈ nodes → module ≠ "" →
      ∀ part ∈ pySplit '.' module, part ≠ "" → pyLower part ∈ scanFileImports nodes) ∧
    (∀ module names, PyImport.impFrom module names ∈ nodes → ∀ n ∈ names, n ≠ "*" →
      pyLower n ∈ scanFileImports nodes) := by
  have hnode : ∀ node ∈ nodes, ∀ x ∈ scanImportNode node, x ∈ scanFileImports nodes := by
    intro node hn x hx
    exact List.mem_flatten.mpr ⟨scanImportNode node, List.mem_map_of_mem _ hn, hx⟩
  refine ⟨?_, ?_, ?_⟩
  · intro names hn m hm part hpart hne
    refine hnode _ hn _ ?_
    refine List.mem_flatten.mpr ⟨importPathSegments m, List.mem_map_of_mem _ hm, ?_⟩
    exact List.mem_map_of_mem _ (List.mem_filter.mpr ⟨hpart, by simpa using hne⟩)
  · intro module names hn hmod part hpart hne
    refine hnode _ hn _ ?_
    refine List.mem_append_left _ ?_
    show pyLower part ∈ if module ≠ "" then importPathSegments module else []
    rw [if_pos hmod]
    exact List.mem_map_of_mem _ (List.mem_filter.mpr ⟨hpart, by simpa using hne⟩)
  · intro module names hn n hnn hne
    refine hnode _ hn _ ?_
    refine List.mem_append_right _ ?_
    exact List.mem_map_of_mem _ (List.mem_filter.mpr ⟨hnn, by simpa using hne⟩)

theorem C5_witness :
    pyLower "a" ∈ scanFileImports [PyImport.imp ["a.b.c"]] ∧
    pyLower "b" ∈ scanFileImports [PyImport.imp ["a.b.c"]] ∧
    pyLower "c" ∈ scanFileImports [PyImport.imp ["a.b.c"]] ∧
    pyLower "x" ∈ scanFileImports [PyImport.impFrom (some "x.y") ["z"]] ∧
    pyLower "z" ∈ scanFileImports [PyImport.impFrom (some "x.y") ["z"]] :=
  ⟨(C5_segment_scan _).1 ["a.b.c"] (by decide) "a.b.c" (by decide) "a" (by decide) (by decide),
   (C5_segment_scan _).1 ["a.b.c"] (by decide) "a.b.c" (by decide) "b" (by decide) (by decide),
   (C5_segment_scan _).1 ["a.b.c"] (by decide) "a.b.c" (by decide) "c" (by decide) (by decide),
   (C5_segment_scan _).2.1 "x.y" ["z"] (by decide) (by decide) "x" (by decide) (by decide),
   (C5_segment_scan _).2.2 (some "x.y") ["z"] (by decide) "z" (by decide) (by decide)⟩

/-- Claim C9: the manifest reader returns the empty set when the file is
absent, and for a present well-formed manifest it returns the union of the
lowercased bare names of the flat PEP 621 list and the lowercased keys of
the Poetry table other than `python`. -/
theorem C9_reader_contract :
    get_dependencies none = ∅ ∧
    ∀ data : PyprojectData,
      get_dependencies (some data) =
        (data.projectDependencies.map (fun dep => pyLower (bareName dep))).toFinset ∪
        ((data.poetryDependencies.filter (fun pkg => decide (pyLower pkg ≠ "python"))).map
          pyLower).toFinset := by
  refine ⟨rfl, ?_⟩
  intro data
  simp only [get_dependencies]
  rw [foldl_insert_eq (fun dep => pyLower (bareName dep)),
    foldl_insert_ite_eq (fun pkg => pyLower pkg ∉ ["python"]) pyLower]
  have hp : (fun pkg => decide (pyLower pkg ∉ ["python"]))
      = (fun pkg => decide (pyLower pkg ≠ "python")) := by
    funext pkg
    simp
  rw [hp, Finset.empty_union]

/-- Claim C6, counterexample: the similarity matcher is not symmetric on the
fuzzy tier, because the `SequenceMatcher` matching-block total depends on
argument order.  For `a := "xxcyy"` and `b := "yydxxeyy"` the ratio is
`8/13` one way but `4/13` the other, so at the default threshold `3/5` the
two directions disagree. -/
theorem C6_counterexample :
    is_similar "xxcyy" "yydxxeyy" (3/5) = true ∧
    is_similar "yydxxeyy" "xxcyy" (3/5) = false := by
  have e1 : matchingTotal "xxcyy".data "yydxxeyy".data 6 (0, 5, 0, 8) = 4 := by decide
  have e2 : matchingTotal "yydxxeyy".data "xxcyy".data 9 (0, 8, 0, 5) = 2 := by decide
  have r1 : ratioQ "xxcyy".data "yydxxeyy".data = 8 / 13 := by
    simp only [ratioQ]
    norm_num [e1]
  have r2 : ratioQ "yydxxeyy".data "xxcyy".data = 4 / 13 := by
    simp only [ratioQ]
    norm_num [e2]
  have hn1 : normalize_name "xxcyy" = "xxcyy" := by decide
  have hn2 : normalize_name "yydxxeyy" = "yydxxeyy" := by decide
  constructor
  · simp only [is_similar]
    rw [if_neg (by decide), if_neg (by decide), hn1, hn2, r1]
    simp only [decide_eq_true_eq]
    norm_num
  · simp only [is_similar]
    rw [if_neg (by decide), if_neg (by decide), hn1, hn2, r2]
    simp only [decide_eq_false_iff_not]
    norm_num

/-- Claim C6, amended: `is_similar` is symmetric whenever the two normalized
names are equal or one is a substring of the other (the shortcut tiers); on
the fuzzy tier the `SequenceMatcher` ratio depends on argument order, so
symmetry does not hold in general. -/
theorem C6_amended (a b : String) (t : ℚ)
    (h : normalize_name a = normalize_name b ∨
      lcontains (normalize_name b).data (normalize_name a).data = true ∨
      lcontains (normalize_name a).data (normalize_name b).data = true) :
    is_similar a b t = is_similar b a t := by
  by_cases heq : normalize_name a = normalize_name b
  · simp [is_similar, heq]
  · have heq2 : ¬(normalize_name b = normalize_name a) := fun hh => heq hh.symm
    have hsub2 : lcontains (normalize_name b).data (normalize_name a).data = true ∨
        lcontains (normalize_name a).data (normalize_name b).data = true := by
      rcases h with heq' | hsub | hsub
      · exact absurd heq' heq
      · exact Or.inl hsub
      · exact Or.inr hsub
    have l1 : is_similar a b t = true := by
      simp only [is_similar]
      rw [if_neg heq]
      rcases hsub2 with hsub | hsub <;> simp [hsub]
    have l2 : is_similar b a t = true := by
      simp only [is_similar]
      rw [if_neg heq2]
      rcases hsub2 with hsub | hsub <;> simp [hsub]
    rw [l1, l2]

theorem C6_amended_witness :
    is_similar "pytest" "pytest-cov" (3/5) = is_similar "pytest-cov" "pytest" (3/5) :=
  C6_amended "pytest" "pytest-cov" (3/5) (Or.inr (Or.inl (by decide)))
